import Mathlib

/-!
Verification of the admission-and-routing core of the API gateway simulator:
the token-bucket rate limiter (`RateLimiter` with `Allow`/`AllowMutex`), the
per-provider health tracker (`MarkFailure`/`calculateCooldown`), and the
weighted-random provider selector (`SelectProvider`/`selectSoonestExpiring`).

Modelling conventions:
* Go `float64` arithmetic is embedded as exact arithmetic over `ℚ`.
* `time.Time`/`time.Duration` values are unix nanoseconds, embedded as `ℤ`.
* The limiter's token balance is stored, as in the Go struct, as an `int64`
  count of nano-tokens; Go's `int64(x)` conversion of a non-negative float
  is truncation toward zero, embedded as `Int.floor` (the converted values
  are provably non-negative at every conversion site).
* The uniform random source (`rand.Float64`, `rand.Int63n`) is passed in as
  an explicit parameter, constrained to the range the generator guarantees.
-/

namespace GatewaySim

/-- Token-bucket limiter state (`RateLimiter` struct): refill rate in tokens
per second, burst capacity, current balance in nano-tokens, and the unix-nano
timestamp of the last update. The mutex used only by `AllowMutex` has no
sequential content and is not part of the state. -/
structure RateLimiter where
  rate : ℚ
  capacity : ℚ
  tokens : ℤ
  lastUpdate : ℤ
deriving DecidableEq, Repr

/-- `NewRateLimiter(rps)`: capacity is `math.Max(10, rps*0.1)`, the initial
balance is `int64(capacity * 1e9)` nano-tokens, `lastUpdate` is the current
time (here an explicit `now` parameter). -/
def NewRateLimiter (rps : ℚ) (now : ℤ) : RateLimiter :=
  let capacity : ℚ := max 10 (rps * (1 / 10))
  { rate := rps
    capacity := capacity
    tokens := ⌊capacity * 10 ^ 9⌋
    lastUpdate := now }

/-- `Allow()` (atomic version): loads `lastUpdate` and `tokens`, computes
`elapsed = (now-last)/1e9` seconds, `newTokens = min(capacity,
tokens/1e9 + elapsed*rate)`; if `newTokens >= 1.0` stores the decremented
balance and `now`, returning true, otherwise stores only `now`, returning
false. Sequential semantics: the pair of separate atomic stores collapses to
one state update (their interleaving behaviour is modelled separately by
`threadStep`). -/
def RateLimiter.Allow (rl : RateLimiter) (now : ℤ) : Bool × RateLimiter :=
  let last := rl.lastUpdate
  let elapsed : ℚ := ((now - last : ℤ) : ℚ) / 10 ^ 9
  let refill := elapsed * rl.rate
  let currentTokens : ℚ := (rl.tokens : ℚ) / 10 ^ 9
  let newTokens := min rl.capacity (currentTokens + refill)
  if 1 ≤ newTokens then
    (true, { rl with tokens := ⌊(newTokens - 1) * 10 ^ 9⌋, lastUpdate := now })
  else
    (false, { rl with lastUpdate := now })

/-- `AllowMutex()`: the mutex-guarded variant. `now.Sub(time.Unix(0, last))`
followed by `.Seconds()` is again `(now-last)/1e9`; the arithmetic is
identical to `Allow`. -/
def RateLimiter.AllowMutex (rl : RateLimiter) (now : ℤ) : Bool × RateLimiter :=
  let elapsedSeconds : ℚ := ((now - rl.lastUpdate : ℤ) : ℚ) / 10 ^ 9
  let refill := elapsedSeconds * rl.rate
  let currentTokens : ℚ := (rl.tokens : ℚ) / 10 ^ 9
  let newTokens := min rl.capacity (currentTokens + refill)
  if 1 ≤ newTokens then
    (true, { rl with tokens := ⌊(newTokens - 1) * 10 ^ 9⌋, lastUpdate := now })
  else
    (false, { rl with lastUpdate := now })

/-- The candidate balance `min(capacity, tokens + elapsed*rate)` (in token
units) that `Allow` computes before deciding. -/
def RateLimiter.candidate (rl : RateLimiter) (now : ℤ) : ℚ :=
  min rl.capacity
    ((rl.tokens : ℚ) / 10 ^ 9 + ((now - rl.lastUpdate : ℤ) : ℚ) / 10 ^ 9 * rl.rate)

/-- C1: on each admission check with `candidate = min(capacity,
tokens + elapsed*rate)`, the call admits iff `candidate ≥ 1.0`; it always
persists `now` as `lastRefillTime`; on admission it persists `candidate - 1`
as the new balance (stored, as the code does, as `int64((candidate-1)*1e9)`
nano-tokens); on denial the balance is untouched; rate and capacity never
change; and the mutex variant behaves identically. -/
theorem allow_admission_spec (rl : RateLimiter) (now : ℤ) :
    ((rl.Allow now).1 = true ↔ 1 ≤ rl.candidate now) ∧
    (rl.Allow now).2.lastUpdate = now ∧
    (1 ≤ rl.candidate now →
      (rl.Allow now).2.tokens = ⌊(rl.candidate now - 1) * 10 ^ 9⌋) ∧
    (¬ 1 ≤ rl.candidate now → (rl.Allow now).2.tokens = rl.tokens) ∧
    (rl.Allow now).2.rate = rl.rate ∧
    (rl.Allow now).2.capacity = rl.capacity ∧
    rl.AllowMutex now = rl.Allow now := by
  have ha : rl.Allow now =
      if 1 ≤ rl.candidate now then
        (true, { rl with tokens := ⌊(rl.candidate now - 1) * 10 ^ 9⌋, lastUpdate := now })
      else (false, { rl with lastUpdate := now }) := rfl
  have hm : rl.AllowMutex now = rl.Allow now := rfl
  by_cases h : 1 ≤ rl.candidate now
  · rw [ha, if_pos h]
    exact ⟨⟨fun _ => h, fun _ => rfl⟩, rfl, fun _ => rfl, fun hc => absurd h hc, rfl, rfl,
      hm.trans (ha.trans (if_pos h))⟩
  · rw [ha, if_neg h]
    exact ⟨⟨fun hb => absurd hb (by simp), fun hc => absurd hc h⟩, rfl,
      fun hc => absurd hc h, fun _ => rfl, rfl, rfl, hm.trans (ha.trans (if_neg h))⟩

/-- Witness for C1 at a concrete input: the fresh limiter with rate 1 has
candidate balance 10 ≥ 1 and one admission leaves 9 tokens (9·10⁹ nano). -/
theorem allow_admission_spec_witness :
    (1 ≤ (NewRateLimiter 1 0).candidate 0) ∧
    ((NewRateLimiter 1 0).Allow 0).2.tokens = 9 * 10 ^ 9 := by
  have hc : 1 ≤ (NewRateLimiter 1 0).candidate 0 := by
    unfold NewRateLimiter RateLimiter.candidate
    norm_num
  refine ⟨hc, ?_⟩
  have h := (allow_admission_spec (NewRateLimiter 1 0) 0).2.2.1 hc
  rw [h]
  unfold NewRateLimiter RateLimiter.candidate
  norm_num

/-- State after `k` admission checks made back-to-back at the same instant
`now` (zero elapsed time between calls). -/
def allowIter (rl : RateLimiter) (now : ℤ) : ℕ → RateLimiter
  | 0 => rl
  | k + 1 => ((allowIter rl now k).Allow now).2

/-- Result of the `(k+1)`-st of the back-to-back admission checks. -/
def allowResult (rl : RateLimiter) (now : ℤ) (k : ℕ) : Bool :=
  ((allowIter rl now k).Allow now).1

theorem allow_zero_elapsed (s : RateLimiter) (now : ℤ)
    (hlast : s.lastUpdate = now) (hcap : (s.tokens : ℚ) ≤ s.capacity * 10 ^ 9) :
    s.Allow now =
      if 10 ^ 9 ≤ s.tokens then (true, { s with tokens := s.tokens - 10 ^ 9 })
      else (false, s) := by
  subst hlast
  have hcand : s.candidate s.lastUpdate = (s.tokens : ℚ) / 10 ^ 9 := by
    unfold RateLimiter.candidate
    rw [sub_self, Int.cast_zero, zero_div, zero_mul, add_zero]
    exact min_eq_right ((div_le_iff₀ (by norm_num)).mpr hcap)
  have ha : s.Allow s.lastUpdate =
      if 1 ≤ s.candidate s.lastUpdate then
        (true, { s with tokens := ⌊(s.candidate s.lastUpdate - 1) * 10 ^ 9⌋,
                        lastUpdate := s.lastUpdate })
      else (false, { s with lastUpdate := s.lastUpdate }) := rfl
  by_cases h : (10 : ℤ) ^ 9 ≤ s.tokens
  · have h1 : 1 ≤ s.candidate s.lastUpdate := by
      rw [hcand, le_div_iff₀ (by norm_num : (0:ℚ) < 10 ^ 9), one_mul]
      exact_mod_cast h
    rw [ha, if_pos h1, if_pos h, hcand]
    have hfl : ((s.tokens : ℚ) / 10 ^ 9 - 1) * 10 ^ 9 = ((s.tokens - 10 ^ 9 : ℤ) : ℚ) := by
      push_cast
      field_simp
      norm_num
    rw [hfl, Int.floor_intCast]
  · have h1 : ¬ 1 ≤ s.candidate s.lastUpdate := by
      rw [hcand, le_div_iff₀ (by norm_num : (0:ℚ) < 10 ^ 9), one_mul]
      intro hc
      exact h (by exact_mod_cast hc)
    rw [ha, if_neg h1, if_neg h]

theorem allowIter_state (rl : RateLimiter) (now : ℤ) (hlast : rl.lastUpdate = now)
    (hcap : (rl.tokens : ℚ) ≤ rl.capacity * 10 ^ 9) :
    ∀ k : ℕ, (k : ℤ) * 10 ^ 9 ≤ rl.tokens →
      allowIter rl now k = { rl with tokens := rl.tokens - k * 10 ^ 9 } := by
  intro k
  induction k with
  | zero =>
    intro _
    show rl = _
    rw [Nat.cast_zero, zero_mul, sub_zero]
  | succ k ih =>
    intro hk
    have hstep : ((k : ℤ) + 1) * 10 ^ 9 ≤ rl.tokens := by
      rw [Nat.cast_succ] at hk
      exact hk
    have hk' : (k : ℤ) * 10 ^ 9 ≤ rl.tokens := by nlinarith
    have hs := ih hk'
    show ((allowIter rl now k).Allow now).2 = _
    rw [hs]
    set s : RateLimiter := { rl with tokens := rl.tokens - k * 10 ^ 9 } with hsdef
    have h9 : (10 : ℤ) ^ 9 ≤ s.tokens := by
      show (10 : ℤ) ^ 9 ≤ rl.tokens - k * 10 ^ 9
      linarith
    have hz := allow_zero_elapsed s now hlast (by
      show ((rl.tokens - k * 10 ^ 9 : ℤ) : ℚ) ≤ rl.capacity * 10 ^ 9
      have : ((rl.tokens - k * 10 ^ 9 : ℤ) : ℚ) ≤ (rl.tokens : ℚ) := by
        push_cast
        nlinarith [show (0 : ℚ) ≤ (k : ℚ) from by positivity]
      linarith)
    rw [hz, if_pos h9]
    show ({ rl with tokens := rl.tokens - k * 10 ^ 9 - 10 ^ 9 } : RateLimiter) = _
    have : rl.tokens - (k : ℤ) * 10 ^ 9 - 10 ^ 9 = rl.tokens - ((k : ℕ) + 1 : ℕ) * 10 ^ 9 := by
      push_cast
      ring
    rw [this]

theorem allowResult_spec (rl : RateLimiter) (now : ℤ) (hlast : rl.lastUpdate = now)
    (hcap : (rl.tokens : ℚ) ≤ rl.capacity * 10 ^ 9) (k : ℕ)
    (hk : (k : ℤ) * 10 ^ 9 ≤ rl.tokens) :
    allowResult rl now k = decide (((k : ℤ) + 1) * 10 ^ 9 ≤ rl.tokens) := by
  unfold allowResult
  rw [allowIter_state rl now hlast hcap k hk]
  set s : RateLimiter := { rl with tokens := rl.tokens - k * 10 ^ 9 } with hsdef
  have hz := allow_zero_elapsed s now hlast (by
    show ((rl.tokens - k * 10 ^ 9 : ℤ) : ℚ) ≤ rl.capacity * 10 ^ 9
    have : ((rl.tokens - k * 10 ^ 9 : ℤ) : ℚ) ≤ (rl.tokens : ℚ) := by
      push_cast
      nlinarith [show (0 : ℚ) ≤ (k : ℚ) from by positivity]
    linarith)
  rw [hz]
  by_cases h9 : (10 : ℤ) ^ 9 ≤ s.tokens
  · have : ((k : ℤ) + 1) * 10 ^ 9 ≤ rl.tokens := by
      have := h9
      show _ ≤ _
      have h9' : (10 : ℤ) ^ 9 ≤ rl.tokens - k * 10 ^ 9 := h9
      linarith
    rw [if_pos h9, decide_eq_true this]
  · have : ¬ ((k : ℤ) + 1) * 10 ^ 9 ≤ rl.tokens := by
      intro hc
      exact h9 (by
        show (10 : ℤ) ^ 9 ≤ rl.tokens - k * 10 ^ 9
        linarith)
    rw [if_neg h9, decide_eq_false this]

theorem floor_mul_le_floor_nano (c : ℚ) : ⌊c⌋ * 10 ^ 9 ≤ ⌊c * 10 ^ 9⌋ := by
  apply Int.le_floor.mpr
  push_cast
  have := Int.floor_le c
  nlinarith

/-- C2: a freshly constructed limiter with rate > 0 (capacity
`max(10, rate·0.1)`) admits exactly `⌊capacity⌋` back-to-back calls: every
call of index `k < ⌊capacity⌋` is admitted, and call number `⌊capacity⌋`
(the next one) is denied. -/
theorem fresh_limiter_burst (r : ℚ) (hr : 0 < r) (now : ℤ) :
    (∀ k : ℕ, (k : ℤ) < ⌊(NewRateLimiter r now).capacity⌋ →
      allowResult (NewRateLimiter r now) now k = true) ∧
    allowResult (NewRateLimiter r now) now (⌊(NewRateLimiter r now).capacity⌋).toNat
      = false := by
  set rl := NewRateLimiter r now with hrl
  have hcapdef : rl.capacity = max 10 (r * (1 / 10)) := rfl
  have htok : rl.tokens = ⌊rl.capacity * 10 ^ 9⌋ := rfl
  have hlast : rl.lastUpdate = now := rfl
  have hcap10 : (10 : ℚ) ≤ rl.capacity := by
    rw [hcapdef]
    exact le_max_left _ _
  have hc0 : (0 : ℤ) ≤ ⌊rl.capacity⌋ := by
    apply Int.le_floor.mpr
    push_cast
    linarith
  have hcapQ : (rl.tokens : ℚ) ≤ rl.capacity * 10 ^ 9 := by
    rw [htok]
    exact Int.floor_le _
  constructor
  · intro k hk
    have hk1 : (k : ℤ) + 1 ≤ ⌊rl.capacity⌋ := hk
    have hlow : ((k : ℤ) + 1) * 10 ^ 9 ≤ rl.tokens := by
      rw [htok]
      calc ((k : ℤ) + 1) * 10 ^ 9 ≤ ⌊rl.capacity⌋ * 10 ^ 9 := by nlinarith
        _ ≤ ⌊rl.capacity * 10 ^ 9⌋ := floor_mul_le_floor_nano _
    have hk' : (k : ℤ) * 10 ^ 9 ≤ rl.tokens := by
      have : (k : ℤ) * 10 ^ 9 ≤ ((k : ℤ) + 1) * 10 ^ 9 := by nlinarith
      linarith
    rw [allowResult_spec rl now hlast hcapQ k hk', decide_eq_true hlow]
  · set n : ℕ := (⌊rl.capacity⌋).toNat with hn
    have hncast : (n : ℤ) = ⌊rl.capacity⌋ := Int.toNat_of_nonneg hc0
    have hupper : rl.tokens < ((n : ℤ) + 1) * 10 ^ 9 := by
      rw [htok]
      apply Int.floor_lt.mpr
      have h2 : ((n : ℚ)) = ((⌊rl.capacity⌋ : ℤ) : ℚ) := by exact_mod_cast hncast
      push_cast
      nlinarith [Int.lt_floor_add_one rl.capacity, h2]
    have hlow : (n : ℤ) * 10 ^ 9 ≤ rl.tokens := by
      rw [htok, hncast]
      exact floor_mul_le_floor_nano _
    rw [allowResult_spec rl now hlast hcapQ n hlow,
      decide_eq_false (by exact not_le.mpr hupper)]

/-- Witness for C2 at rate 1 (capacity 10): the first call is admitted and
the eleventh call (index 10 = ⌊capacity⌋) is denied. -/
theorem fresh_limiter_burst_witness :
    (0 : ℚ) < 1 ∧ allowResult (NewRateLimiter 1 0) 0 0 = true ∧
      allowResult (NewRateLimiter 1 0) 0 10 = false := by
  have hcap : (NewRateLimiter 1 0).capacity = 10 := by
    show max 10 ((1 : ℚ) * (1 / 10)) = 10
    rw [one_mul]
    exact max_eq_left (by norm_num)
  have hfl : ⌊(NewRateLimiter 1 0).capacity⌋ = 10 := by
    rw [hcap]
    exact_mod_cast Int.floor_intCast (α := ℚ) 10
  have h := fresh_limiter_burst 1 (by norm_num) 0
  refine ⟨by norm_num, ?_, ?_⟩
  · exact h.1 0 (by rw [hfl]; norm_num)
  · have h2 := h.2
    rw [hfl] at h2
    exact h2

/-- Go's conversion of a `float64` to an integer type — here
`time.Duration(x)` — truncates toward zero. -/
def goTrunc (q : ℚ) : ℤ := if 0 ≤ q then ⌊q⌋ else -⌊-q⌋

/-- One minute in `time.Duration` units (nanoseconds). -/
def minuteNs : ℤ := 60 * 10 ^ 9

/-- One hour in `time.Duration` units (nanoseconds). -/
def hourNs : ℤ := 3600 * 10 ^ 9

/-- `calculateCooldown(errorCount, errorType)`: returns 0 for
`errorCount <= 0`; otherwise `cooldown = time.Duration(float64(base) *
math.Pow(5, min(errorCount-1, 3)))` with `base = 1 minute`, then
`jitter = time.Duration(rand.Float64()*0.6 - 0.3) * cooldown` is added and
the result is capped at one hour. `u` is the `rand.Float64()` sample;
`errorType` is accepted and ignored exactly as in the source. -/
def calculateCooldown (errorCount : ℤ) (errorType : String) (u : ℚ) : ℤ :=
  let base : ℤ := minuteNs
  if errorCount ≤ 0 then 0
  else
    let exponent : ℤ := min (errorCount - 1) 3
    let multiplier : ℚ := 5 ^ exponent.toNat
    let cooldown : ℤ := goTrunc ((base : ℚ) * multiplier)
    let jitter : ℤ := goTrunc (u * (6 / 10) - 3 / 10) * cooldown
    let cooldown2 : ℤ := cooldown + jitter
    if hourNs < cooldown2 then hourNs else cooldown2

theorem goTrunc_intCast (n : ℤ) : goTrunc (n : ℚ) = n := by
  unfold goTrunc
  by_cases h : (0 : ℚ) ≤ (n : ℚ)
  · rw [if_pos h, Int.floor_intCast]
  · rw [if_neg h, ← Int.cast_neg, Int.floor_intCast, neg_neg]

theorem goTrunc_small (q : ℚ) (h0 : -1 < q) (h1 : q < 1) : goTrunc q = 0 := by
  unfold goTrunc
  by_cases h : 0 ≤ q
  · rw [if_pos h]
    exact Int.floor_eq_zero_iff.mpr ⟨h, h1⟩
  · rw [if_neg h]
    have : ⌊-q⌋ = 0 := Int.floor_eq_zero_iff.mpr ⟨by linarith, by linarith⟩
    rw [this, neg_zero]

/-- Shared evaluation lemma: for any `rand.Float64()` sample `u ∈ [0, 1)`
the jitter term truncates to a zero duration, so `calculateCooldown` is the
pure capped exponential `min(minute·5^min(ec-1,3), hour)` (and 0 for
`ec ≤ 0`). -/
theorem calculateCooldown_formula (errorCount : ℤ) (errorType : String) (u : ℚ)
    (hu0 : 0 ≤ u) (hu1 : u < 1) :
    calculateCooldown errorCount errorType u =
      if errorCount ≤ 0 then 0
      else min (minuteNs * 5 ^ (min (errorCount - 1) 3).toNat) hourNs := by
  unfold calculateCooldown
  by_cases hec : errorCount ≤ 0
  · rw [if_pos hec, if_pos hec]
  · rw [if_neg hec, if_neg hec]
    dsimp only
    have hjit : goTrunc (u * (6 / 10) - 3 / 10) = 0 :=
      goTrunc_small _ (by linarith) (by linarith)
    have hcd : goTrunc ((minuteNs : ℚ) * 5 ^ (min (errorCount - 1) 3).toNat)
        = minuteNs * 5 ^ (min (errorCount - 1) 3).toNat := by
      rw [show ((minuteNs : ℚ) * 5 ^ (min (errorCount - 1) 3).toNat)
            = ((minuteNs * 5 ^ (min (errorCount - 1) 3).toNat : ℤ) : ℚ) by push_cast; ring]
      exact goTrunc_intCast _
    rw [hjit, hcd, zero_mul, add_zero]
    rcases le_or_lt (minuteNs * 5 ^ (min (errorCount - 1) 3).toNat) hourNs with hle | hlt
    · rw [if_neg (not_lt.mpr hle), min_eq_left hle]
    · rw [if_pos hlt, min_eq_right (le_of_lt hlt)]

/-- C10: for every errorCount ≥ 1 the computed cooldown is deterministic —
`time.Duration(rand.Float64()*0.6 - 0.3)` truncates to a zero duration
before the multiplication — so the result is exactly
`min(1 minute · 5^min(errorCount-1, 3), 1 hour)`; for errorCount ≤ 0 it is
0; and the value is independent of the random sample. -/
theorem cooldown_no_jitter (errorCount : ℤ) (errorType : String) (u v : ℚ)
    (hu0 : 0 ≤ u) (hu1 : u < 1) (hv0 : 0 ≤ v) (hv1 : v < 1) :
    (1 ≤ errorCount →
      calculateCooldown errorCount errorType u
        = min (minuteNs * 5 ^ (min (errorCount - 1) 3).toNat) hourNs) ∧
    (errorCount ≤ 0 → calculateCooldown errorCount errorType u = 0) ∧
    calculateCooldown errorCount errorType u
      = calculateCooldown errorCount errorType v := by
  rw [calculateCooldown_formula errorCount errorType u hu0 hu1,
      calculateCooldown_formula errorCount errorType v hv0 hv1]
  refine ⟨fun h1 => ?_, fun h0 => ?_, rfl⟩
  · rw [if_neg (by omega)]
  · rw [if_pos h0]

/-- Witness for C10: with random sample 1/2 and errorCount 2 the cooldown is
exactly 5 minutes (300·10⁹ ns). -/
theorem cooldown_no_jitter_witness :
    (0 : ℚ) ≤ 1 / 2 ∧ calculateCooldown 2 "server_error" (1 / 2) = 300 * 10 ^ 9 := by
  have h := (cooldown_no_jitter 2 "server_error" (1 / 2) (1 / 3)
    (by norm_num) (by norm_num) (by norm_num) (by norm_num)).1 (by norm_num)
  refine ⟨by norm_num, ?_⟩
  rw [h]
  decide

/-- C5: for any random sample in [0,1), calculateCooldown(errorCount=1) lies
in [0.7, 1.3] minutes (indeed it is exactly one minute), and
calculateCooldown(errorCount=5) lies in [0.7, 1.3] hours and is capped at
exactly one hour. -/
theorem cooldown_bounds_spec (errorType : String) (u : ℚ) (hu0 : 0 ≤ u) (hu1 : u < 1) :
    (7 * minuteNs / 10 ≤ calculateCooldown 1 errorType u ∧
      calculateCooldown 1 errorType u ≤ 13 * minuteNs / 10) ∧
    (7 * hourNs / 10 ≤ calculateCooldown 5 errorType u ∧
      calculateCooldown 5 errorType u ≤ 13 * hourNs / 10 ∧
      calculateCooldown 5 errorType u = hourNs) := by
  rw [calculateCooldown_formula 1 errorType u hu0 hu1,
      calculateCooldown_formula 5 errorType u hu0 hu1]
  refine ⟨⟨?_, ?_⟩, ?_, ?_, ?_⟩ <;> decide

/-- Witness for C5 at sample 0: the errorCount=5 cooldown is exactly the
one-hour cap. -/
theorem cooldown_bounds_spec_witness :
    (0 : ℚ) ≤ 0 ∧ calculateCooldown 5 "timeout" 0 = hourNs :=
  ⟨le_refl 0, (cooldown_bounds_spec "timeout" 0 (le_refl 0) (by norm_num)).2.2.2⟩

/-- C4 fails on the code: at errorCount 1 with random draw 11/12 the claimed
±30% jitter formula would give 1.25 minutes (75·10⁹ ns), but the code's
jitter term truncates to a zero duration and it returns exactly one minute. -/
theorem cooldown_jitter_dropped :
    calculateCooldown 1 "rate_limit" (11 / 12) = minuteNs ∧
    (minuteNs : ℚ) * (1 + ((11 / 12 : ℚ) * (6 / 10) - 3 / 10)) = 75 * 10 ^ 9 := by
  constructor
  · rw [calculateCooldown_formula 1 "rate_limit" (11 / 12) (by norm_num) (by norm_num)]
    decide
  · norm_num [minuteNs]

/-- Per-provider health record (`ProviderHealth`): error count, time of the
last failure, and the two independent exclusion deadlines, all timestamps in
unix nanoseconds. The per-record RWMutex has no sequential content. -/
structure ProviderHealth where
  errorCount : ℤ
  lastFailure : ℤ
  cooldownUntil : ℤ
  disabledUntil : ℤ
deriving DecidableEq, Repr

/-- `MarkFailure(providerID, errorType)` acting on the provider's health
record: increments `ErrorCount`, sets `LastFailure = now`, computes the
cooldown from the new count, and writes `now + cooldown` to `DisabledUntil`
when `errorType == "billing"`, otherwise to `CooldownUntil`. -/
def MarkFailure (h : ProviderHealth) (errorType : String) (now : ℤ) (u : ℚ) :
    ProviderHealth :=
  let ec := h.errorCount + 1
  let cooldown := calculateCooldown ec errorType u
  if errorType = "billing" then
    { h with errorCount := ec, lastFailure := now, disabledUntil := now + cooldown }
  else
    { h with errorCount := ec, lastFailure := now, cooldownUntil := now + cooldown }

/-- C6: `MarkFailure` with the distinguished "billing" kind writes the
computed deadline `now + cooldown` to `disabledUntil` and leaves
`cooldownUntil` unchanged; with any other kind it writes the deadline to
`cooldownUntil` and leaves `disabledUntil` unchanged; in both cases the
error count is incremented and the failure time set to `now`. -/
theorem markFailure_frame (h : ProviderHealth) (errorType : String) (now : ℤ) (u : ℚ) :
    (MarkFailure h errorType now u).errorCount = h.errorCount + 1 ∧
    (MarkFailure h errorType now u).lastFailure = now ∧
    (errorType = "billing" →
      (MarkFailure h errorType now u).disabledUntil
          = now + calculateCooldown (h.errorCount + 1) errorType u ∧
      (MarkFailure h errorType now u).cooldownUntil = h.cooldownUntil) ∧
    (errorType ≠ "billing" →
      (MarkFailure h errorType now u).cooldownUntil
          = now + calculateCooldown (h.errorCount + 1) errorType u ∧
      (MarkFailure h errorType now u).disabledUntil = h.disabledUntil) := by
  have hm : MarkFailure h errorType now u =
      if errorType = "billing" then
        { h with errorCount := h.errorCount + 1, lastFailure := now,
                 disabledUntil := now + calculateCooldown (h.errorCount + 1) errorType u }
      else
        { h with errorCount := h.errorCount + 1, lastFailure := now,
                 cooldownUntil := now + calculateCooldown (h.errorCount + 1) errorType u } :=
    rfl
  by_cases hb : errorType = "billing"
  · rw [hm, if_pos hb]
    exact ⟨rfl, rfl, fun _ => ⟨rfl, rfl⟩, fun hc => absurd hb hc⟩
  · rw [hm, if_neg hb]
    exact ⟨rfl, rfl, fun hc => absurd hc hb, fun _ => ⟨rfl, rfl⟩⟩

/-- Witness for C6: from a fresh health record, a "billing" failure at
t = 100 sets only the disable deadline and a "server_error" failure sets
only the cooldown deadline. -/
theorem markFailure_frame_witness :
    (MarkFailure ⟨0, 0, 0, 0⟩ "billing" 100 0).disabledUntil
        = 100 + calculateCooldown 1 "billing" 0 ∧
    (MarkFailure ⟨0, 0, 0, 0⟩ "billing" 100 0).cooldownUntil = 0 ∧
    (MarkFailure ⟨0, 0, 0, 0⟩ "server_error" 100 0).cooldownUntil
        = 100 + calculateCooldown 1 "server_error" 0 ∧
    (MarkFailure ⟨0, 0, 0, 0⟩ "server_error" 100 0).disabledUntil = 0 := by
  have h1 := (markFailure_frame ⟨0, 0, 0, 0⟩ "billing" 100 0).2.2.1 rfl
  have h2 := (markFailure_frame ⟨0, 0, 0, 0⟩ "server_error" 100 0).2.2.2 (by decide)
  exact ⟨h1.1, h1.2, h2.1, h2.2⟩

/-- Upstream target (`Provider`): identifier and routing weight. The
latency/error-rate profile is consumed only by the excluded upstream-call
simulation, never by selection, and is omitted. -/
structure Provider where
  id : String
  weight : ℤ
deriving DecidableEq, Repr

/-- Gateway routing state: ordered provider list, the per-provider health
map (total on identifiers, as `health[p.ID]` is for every configured id),
and the cached total weight. The limiter and mutexes are separate. -/
structure Gateway where
  providers : List Provider
  health : String → ProviderHealth
  totalWeight : ℤ

/-- `NewGateway()`: the three fixed providers with weights 70/20/10, fresh
(zeroed) health records, and `totalWeight` accumulated over all providers. -/
def NewGateway : Gateway :=
  let providers : List Provider :=
    [⟨"provider1", 70⟩, ⟨"provider2", 20⟩, ⟨"provider3", 10⟩]
  { providers := providers
    health := fun _ => ⟨0, 0, 0, 0⟩
    totalWeight := providers.foldl (fun acc p => acc + p.weight) 0 }

/-- `isInCooldown(providerID)`: the provider is unavailable while `now`
precedes either deadline. -/
def isInCooldown (g : Gateway) (providerID : String) (now : ℤ) : Bool :=
  let h := g.health providerID
  now < h.cooldownUntil || now < h.disabledUntil

/-- The expiry computed inside `selectSoonestExpiring`: `CooldownUntil`,
replaced by `DisabledUntil` when the latter is strictly after it — i.e. the
max of the two deadlines. -/
def healthExpiry (g : Gateway) (p : Provider) : ℤ :=
  let h := g.health p.id
  if h.cooldownUntil < h.disabledUntil then h.disabledUntil else h.cooldownUntil

/-- The loop of `selectSoonestExpiring`: starting from no selection and
`soonest = now + 24h`, each provider whose expiry is strictly before the
running `soonest` replaces the selection. -/
def soonestLoop (g : Gateway) : List Provider → Option Provider → ℤ → Option Provider
  | [], selected, _ => selected
  | p :: rest, selected, soonest =>
      let expiry := healthExpiry g p
      if expiry < soonest then soonestLoop g rest (some p) expiry
      else soonestLoop g rest selected soonest

/-- `selectSoonestExpiring()`: scan all providers for the soonest expiry,
initialised with the far-future bound `time.Now().Add(24 * time.Hour)`;
returns `none` exactly when the Go code returns its nil `selected`. -/
def selectSoonestExpiring (g : Gateway) (now : ℤ) : Option Provider :=
  soonestLoop g g.providers none (now + 24 * 3600 * 10 ^ 9)

/-- The weighted-selection loop of `SelectProvider`: accumulate weights over
the available list and return the first provider whose cumulative sum
exceeds `r`; `none` when the loop falls through. -/
def weightedWalk (r : ℤ) : ℤ → List Provider → Option Provider
  | _, [] => none
  | currentSum, p :: rest =>
      let s := currentSum + p.weight
      if r < s then some p else weightedWalk r s rest

/-- `SelectProvider()`: filter the providers not in cooldown; if none are
available fall back to `selectSoonestExpiring`; otherwise run the weighted
walk with the random draw `r` (the `rand.Int63n(totalWeight)` sample) and
fall back to `available[0]` when the walk falls through. -/
def SelectProvider (g : Gateway) (now : ℤ) (r : ℤ) : Option Provider :=
  let available := g.providers.filter (fun p => ! isInCooldown g p.id now)
  if available.isEmpty then selectSoonestExpiring g now
  else
    match weightedWalk r 0 available with
    | some p => some p
    | none => available.head?

/-- Cumulative weight of the first `n` entries of a provider list. -/
def cumWeight (l : List Provider) (n : ℕ) : ℤ :=
  ((l.take n).map Provider.weight).sum

theorem soonestLoop_spec (g : Gateway) :
    ∀ (l : List Provider) (sel : Option Provider) (soonest : ℤ),
      (soonestLoop g l sel soonest = sel ∧ ∀ p ∈ l, soonest ≤ healthExpiry g p) ∨
      (∃ q ∈ l, soonestLoop g l sel soonest = some q ∧ healthExpiry g q < soonest ∧
        ∀ p ∈ l, healthExpiry g q ≤ healthExpiry g p) := by
  intro l
  induction l with
  | nil =>
    intro sel soonest
    left
    exact ⟨rfl, by simp⟩
  | cons p rest ih =>
    intro sel soonest
    have hstep0 : soonestLoop g (p :: rest) sel soonest =
        if healthExpiry g p < soonest then soonestLoop g rest (some p) (healthExpiry g p)
        else soonestLoop g rest sel soonest := rfl
    by_cases hp : healthExpiry g p < soonest
    · have hstep : soonestLoop g (p :: rest) sel soonest
          = soonestLoop g rest (some p) (healthExpiry g p) := hstep0.trans (if_pos hp)
      rcases ih (some p) (healthExpiry g p) with ⟨heq, hall⟩ | ⟨q, hq, heq, hlt, hall⟩
      · right
        refine ⟨p, List.mem_cons_self p rest, hstep.trans heq, hp, ?_⟩
        intro x hx
        rcases List.mem_cons.mp hx with hxp | hxr
        · rw [hxp]
        · exact hall x hxr
      · right
        refine ⟨q, List.mem_cons_of_mem p hq, hstep.trans heq, lt_trans hlt hp, ?_⟩
        intro x hx
        rcases List.mem_cons.mp hx with hxp | hxr
        · rw [hxp]; exact le_of_lt hlt
        · exact hall x hxr
    · have hstep : soonestLoop g (p :: rest) sel soonest
          = soonestLoop g rest sel soonest := hstep0.trans (if_neg hp)
      rcases ih sel soonest with ⟨heq, hall⟩ | ⟨q, hq, heq, hlt, hall⟩
      · left
        refine ⟨hstep.trans heq, ?_⟩
        intro x hx
        rcases List.mem_cons.mp hx with hxp | hxr
        · rw [hxp]; exact not_lt.mp hp
        · exact hall x hxr
      · right
        refine ⟨q, List.mem_cons_of_mem p hq, hstep.trans heq, hlt, ?_⟩
        intro x hx
        rcases List.mem_cons.mp hx with hxp | hxr
        · rw [hxp]
          exact le_trans (le_of_lt hlt) (not_lt.mp hp)
        · exact hall x hxr

theorem cumWeight_zero (l : List Provider) : cumWeight l 0 = 0 := rfl

theorem cumWeight_cons (p : Provider) (rest : List Provider) (n : ℕ) :
    cumWeight (p :: rest) (n + 1) = p.weight + cumWeight rest n := by
  unfold cumWeight
  rw [List.take_succ_cons, List.map_cons, List.sum_cons]

theorem weightedWalk_eq_first (r : ℤ) :
    ∀ (l : List Provider) (acc : ℤ) (i : ℕ) (hi : i < l.length),
      (∀ j, j < i → acc + cumWeight l (j + 1) ≤ r) →
      r < acc + cumWeight l (i + 1) →
      weightedWalk r acc l = some (l.get ⟨i, hi⟩) := by
  intro l
  induction l with
  | nil =>
    intro acc i hi
    exact absurd hi (by simp)
  | cons p rest ih =>
    intro acc i hi hbefore hhit
    have hw : weightedWalk r acc (p :: rest) =
        if r < acc + p.weight then some p else weightedWalk r (acc + p.weight) rest := rfl
    cases i with
    | zero =>
      have hlt : r < acc + p.weight := by
        rw [cumWeight_cons, cumWeight_zero] at hhit
        linarith
      rw [hw, if_pos hlt]
      rfl
    | succ k =>
      have h0 : acc + p.weight ≤ r := by
        have := hbefore 0 (Nat.succ_pos k)
        rw [cumWeight_cons, cumWeight_zero] at this
        linarith
      rw [hw, if_neg (not_lt.mpr h0)]
      have hk : k < rest.length := by
        simpa using hi
      have hb' : ∀ j, j < k → (acc + p.weight) + cumWeight rest (j + 1) ≤ r := by
        intro j hj
        have := hbefore (j + 1) (by omega)
        rw [cumWeight_cons] at this
        linarith
      have hh' : r < (acc + p.weight) + cumWeight rest (k + 1) := by
        rw [cumWeight_cons] at hhit
        linarith
      rw [ih (acc + p.weight) k hk hb' hh']
      rfl

theorem weightedWalk_exhausted (r : ℤ) :
    ∀ (l : List Provider) (acc : ℤ),
      (∀ n, n < l.length → acc + cumWeight l (n + 1) ≤ r) →
      weightedWalk r acc l = none := by
  intro l
  induction l with
  | nil =>
    intro acc _
    rfl
  | cons p rest ih =>
    intro acc hall
    have h0 : acc + p.weight ≤ r := by
      have := hall 0 (Nat.succ_pos _)
      rw [cumWeight_cons, cumWeight_zero] at this
      linarith
    have hw : weightedWalk r acc (p :: rest) =
        if r < acc + p.weight then some p else weightedWalk r (acc + p.weight) rest := rfl
    rw [hw, if_neg (not_lt.mpr h0)]
    apply ih
    intro n hn
    have := hall (n + 1) (by simpa using Nat.succ_lt_succ hn)
    rw [cumWeight_cons] at this
    linarith

theorem selectProvider_empty_eq (g : Gateway) (now r : ℤ)
    (hl : g.providers.filter (fun p => ! isInCooldown g p.id now) = []) :
    SelectProvider g now r = selectSoonestExpiring g now := by
  have hd : SelectProvider g now r =
      if (g.providers.filter (fun p => ! isInCooldown g p.id now)).isEmpty
      then selectSoonestExpiring g now
      else
        match weightedWalk r 0 (g.providers.filter (fun p => ! isInCooldown g p.id now)) with
        | some p => some p
        | none => (g.providers.filter (fun p => ! isInCooldown g p.id now)).head? := rfl
  rw [hd, hl]
  rfl

theorem selectProvider_available_eq (g : Gateway) (now r : ℤ)
    (a : Provider) (l : List Provider)
    (hl : g.providers.filter (fun p => ! isInCooldown g p.id now) = a :: l) :
    SelectProvider g now r =
      match weightedWalk r 0 (a :: l) with
      | some p => some p
      | none => some a := by
  have hd : SelectProvider g now r =
      if (g.providers.filter (fun p => ! isInCooldown g p.id now)).isEmpty
      then selectSoonestExpiring g now
      else
        match weightedWalk r 0 (g.providers.filter (fun p => ! isInCooldown g p.id now)) with
        | some p => some p
        | none => (g.providers.filter (fun p => ! isInCooldown g p.id now)).head? := rfl
  rw [hd, hl]
  rfl

/-- C7 (amended): a gateway with at least one configured provider always
selects some provider, for every health state in which some provider is
available or some provider's expiry lies within the 24-hour scan bound used
by `selectSoonestExpiring`. (Unrestricted health states falsify the claim:
see the counterexample with every expiry ≥ 24 h away.) -/
theorem selectProvider_total (g : Gateway) (now r : ℤ) (hne : g.providers ≠ [])
    (hok : (∃ p ∈ g.providers, isInCooldown g p.id now = false) ∨
           (∃ p ∈ g.providers, healthExpiry g p < now + 24 * 3600 * 10 ^ 9)) :
    ∃ q, SelectProvider g now r = some q := by
  cases hl : g.providers.filter (fun p => ! isInCooldown g p.id now) with
  | cons a l =>
    rw [selectProvider_available_eq g now r a l hl]
    cases hw : weightedWalk r 0 (a :: l) with
    | some p => exact ⟨p, rfl⟩
    | none => exact ⟨a, rfl⟩
  | nil =>
    rw [selectProvider_empty_eq g now r hl]
    rcases hok with ⟨p, hp, hfalse⟩ | ⟨p, hp, hlt⟩
    · exfalso
      have hmem : p ∈ g.providers.filter (fun q => ! isInCooldown g q.id now) :=
        List.mem_filter.mpr ⟨hp, by rw [hfalse]; rfl⟩
      rw [hl] at hmem
      exact absurd hmem (List.not_mem_nil p)
    · unfold selectSoonestExpiring
      rcases soonestLoop_spec g g.providers none (now + 24 * 3600 * 10 ^ 9) with
        ⟨_, hall⟩ | ⟨q, _, heq, _, _⟩
      · exact absurd (hall p hp) (not_le.mpr hlt)
      · exact ⟨q, heq⟩

/-- Witness for C7: the fresh three-provider gateway with draw 50 selects
some provider. -/
theorem selectProvider_total_witness :
    NewGateway.providers ≠ [] ∧ ∃ q, SelectProvider NewGateway 0 50 = some q :=
  ⟨by decide, selectProvider_total NewGateway 0 50 (by decide) (Or.inl (by decide))⟩

/-- A configured gateway whose only provider is disabled until 25 hours from
now (beyond any deadline the cooldown computation itself can produce). -/
def disabledGateway : Gateway :=
  { providers := [⟨"provider1", 70⟩]
    health := fun _ => ⟨1, 0, 0, 90000 * 10 ^ 9⟩
    totalWeight := 70 }

/-- C7 fails as universally stated: `disabledGateway` has a configured
provider, yet at time 0 selection returns no provider at all (the Go code
returns nil), because the sole provider's expiry is not before `now + 24h`. -/
theorem selectProvider_none_counterexample :
    disabledGateway.providers ≠ [] ∧ SelectProvider disabledGateway 0 0 = none :=
  ⟨by decide, by decide⟩

/-- C8 (amended): when every configured provider is unavailable, selection
ignores the random draw, and — provided some provider's expiry is within the
24-hour scan bound — returns a provider attaining the minimal
`max(cooldownUntil, disabledUntil)`. -/
theorem selectProvider_all_unavailable (g : Gateway) (now r : ℤ)
    (hall : ∀ p ∈ g.providers, isInCooldown g p.id now = true)
    (hsoon : ∃ p ∈ g.providers, healthExpiry g p < now + 24 * 3600 * 10 ^ 9) :
    (∀ r' : ℤ, SelectProvider g now r' = SelectProvider g now r) ∧
    ∃ q ∈ g.providers, SelectProvider g now r = some q ∧
      ∀ p ∈ g.providers, healthExpiry g q ≤ healthExpiry g p := by
  have hl : g.providers.filter (fun p => ! isInCooldown g p.id now) = [] := by
    rw [List.filter_eq_nil_iff]
    intro p hp
    rw [hall p hp]
    simp
  constructor
  · intro r'
    rw [selectProvider_empty_eq g now r hl, selectProvider_empty_eq g now r' hl]
  · rw [selectProvider_empty_eq g now r hl]
    unfold selectSoonestExpiring
    rcases soonestLoop_spec g g.providers none (now + 24 * 3600 * 10 ^ 9) with
      ⟨_, halls⟩ | ⟨q, hq, heq, _, hmin⟩
    · rcases hsoon with ⟨p, hp, hplt⟩
      exact absurd (halls p hp) (not_le.mpr hplt)
    · exact ⟨q, hq, heq, hmin⟩

/-- Two providers both cooling down (600 s and 300 s), used to witness C8. -/
def cooldownGateway : Gateway :=
  { providers := [⟨"provider1", 70⟩, ⟨"provider2", 20⟩]
    health := fun pid =>
      if pid = "provider1" then ⟨1, 0, 600 * 10 ^ 9, 0⟩ else ⟨1, 0, 300 * 10 ^ 9, 0⟩
    totalWeight := 90 }

/-- Witness for C8: with both providers of `cooldownGateway` unavailable at
time 0, selection returns a provider of minimal expiry regardless of the
draw 7. -/
theorem selectProvider_all_unavailable_witness :
    (∀ p ∈ cooldownGateway.providers, isInCooldown cooldownGateway p.id 0 = true) ∧
    ∃ q ∈ cooldownGateway.providers, SelectProvider cooldownGateway 0 7 = some q ∧
      ∀ p ∈ cooldownGateway.providers,
        healthExpiry cooldownGateway q ≤ healthExpiry cooldownGateway p :=
  ⟨by decide, (selectProvider_all_unavailable cooldownGateway 0 7 (by decide) (by decide)).2⟩

/-- Two providers both excluded until ≥ 24 hours from now. -/
def farFutureGateway : Gateway :=
  { providers := [⟨"provider1", 70⟩, ⟨"provider2", 20⟩]
    health := fun pid =>
      if pid = "provider1" then ⟨1, 0, 0, 90000 * 10 ^ 9⟩ else ⟨1, 0, 0, 100000 * 10 ^ 9⟩
    totalWeight := 90 }

/-- C8 fails as universally stated: every provider of `farFutureGateway` is
unavailable at time 0, a provider of minimal expiry exists ("provider1"),
yet selection returns none rather than that provider. -/
theorem selectProvider_all_unavailable_counterexample :
    (∀ p ∈ farFutureGateway.providers, isInCooldown farFutureGateway p.id 0 = true) ∧
    SelectProvider farFutureGateway 0 0 = none :=
  ⟨by decide, by decide⟩

/-- C9 (amended): when at least one provider is available and `r` is a draw
from `[0, totalWeight)` — `totalWeight` being, at construction, the sum of
ALL configured providers' weights — selection walks the available list
accumulating weights and returns the first available provider whose
cumulative weight exceeds `r`; when no available cumulative weight exceeds
`r` (possible precisely because `totalWeight` also counts unavailable
providers' weights) it returns the first available provider instead. -/
theorem selectProvider_weighted (g : Gateway) (now r : ℤ)
    (hr0 : 0 ≤ r) (hrT : r < g.totalWeight) (a : Provider) (l : List Provider)
    (hl : g.providers.filter (fun p => ! isInCooldown g p.id now) = a :: l) :
    (∀ (i : ℕ) (hi : i < (a :: l).length),
      (∀ j, j < i → cumWeight (a :: l) (j + 1) ≤ r) →
      r < cumWeight (a :: l) (i + 1) →
      SelectProvider g now r = some ((a :: l).get ⟨i, hi⟩)) ∧
    ((∀ n, n < (a :: l).length → cumWeight (a :: l) (n + 1) ≤ r) →
      SelectProvider g now r = some a) ∧
    NewGateway.totalWeight = (NewGateway.providers.map Provider.weight).sum := by
  refine ⟨?_, ?_, by decide⟩
  · intro i hi hb hh
    rw [selectProvider_available_eq g now r a l hl,
      weightedWalk_eq_first r (a :: l) 0 i hi
        (by intro j hj; have := hb j hj; linarith)
        (by linarith)]
  · intro hall
    rw [selectProvider_available_eq g now r a l hl,
      weightedWalk_exhausted r (a :: l) 0
        (by intro n hn; have := hall n hn; linarith)]

/-- Witness for C9: on the fresh gateway with draw 75, cumulative weights
70 then 90 make "provider2" the first provider exceeding the draw. -/
theorem selectProvider_weighted_witness :
    (0 : ℤ) ≤ 75 ∧ (75 : ℤ) < NewGateway.totalWeight ∧
    SelectProvider NewGateway 0 75 = some ⟨"provider2", 20⟩ := by
  refine ⟨by norm_num, by decide, ?_⟩
  have h := (selectProvider_weighted NewGateway 0 75 (by norm_num) (by decide)
      ⟨"provider1", 70⟩ [⟨"provider2", 20⟩, ⟨"provider3", 10⟩] (by decide)).1
    1 (by norm_num)
    (by
      intro j hj
      have hj0 : j = 0 := by omega
      rw [hj0]
      decide)
    (by decide)
  exact h

/-- The fresh three-provider gateway with "provider1" (weight 70) cooling
down for an hour: 70 of the 100 total weight is unavailable. -/
def partialCooldownGateway : Gateway :=
  { providers := [⟨"provider1", 70⟩, ⟨"provider2", 20⟩, ⟨"provider3", 10⟩]
    health := fun pid =>
      if pid = "provider1" then ⟨1, 0, 3600 * 10 ^ 9, 0⟩ else ⟨0, 0, 0, 0⟩
    totalWeight := 100 }

/-- C9 fails as universally stated: with draw 50 in `[0, 100)` against
`partialCooldownGateway`, the available providers' cumulative weights are 20
and 30, so no available provider's cumulative weight exceeds the draw — yet
selection still returns "provider2" (the `available[0]` fallback). -/
theorem selectProvider_weighted_counterexample :
    ((0 : ℤ) ≤ 50 ∧ (50 : ℤ) < partialCooldownGateway.totalWeight) ∧
    partialCooldownGateway.providers.filter
        (fun p => ! isInCooldown partialCooldownGateway p.id 0)
      = [⟨"provider2", 20⟩, ⟨"provider3", 10⟩] ∧
    cumWeight [⟨"provider2", 20⟩, ⟨"provider3", 10⟩] 1 ≤ 50 ∧
    cumWeight [⟨"provider2", 20⟩, ⟨"provider3", 10⟩] 2 ≤ 50 ∧
    SelectProvider partialCooldownGateway 0 50 = some ⟨"provider2", 20⟩ :=
  ⟨⟨by norm_num, by decide⟩, by decide, by decide, by decide, by decide⟩

/-- The shared atomic fields of the limiter, as accessed by the separate
`atomic.LoadInt64`/`atomic.StoreInt64` calls inside `Allow`. -/
structure SharedState where
  tokens : ℤ
  lastUpdate : ℤ
deriving DecidableEq, Repr

/-- Program counter of one goroutine executing `Allow`; each transition of
`threadStep` is one atomic access. The read values travel in the
constructors, as in the goroutine's local variables. -/
inductive AllowPC where
  | start
  | gotLast (last : ℤ)
  | gotTokens (last cur : ℤ)
  | decided (ok : Bool)
  | finished (ok : Bool)
deriving DecidableEq, Repr

/-- One atomic step of `Allow` for a goroutine at program counter `pc`:
load `lastUpdate`; load `tokens`; compute `newTokens` from the two loaded
values and, on the admit path, store the decremented balance; finally store
`now` into `lastUpdate` and return. Decomposes the body of `Allow` into its
four atomic accesses with the arithmetic unchanged. -/
def threadStep (rate capacity : ℚ) (now : ℤ) (pc : AllowPC) (sh : SharedState) :
    AllowPC × SharedState :=
  match pc with
  | .start => (.gotLast sh.lastUpdate, sh)
  | .gotLast last => (.gotTokens last sh.tokens, sh)
  | .gotTokens last cur =>
      let newTokens := min capacity ((cur : ℚ) / 10 ^ 9 + ((now - last : ℤ) : ℚ) / 10 ^ 9 * rate)
      if 1 ≤ newTokens then
        (.decided true, { sh with tokens := ⌊(newTokens - 1) * 10 ^ 9⌋ })
      else (.decided false, sh)
  | .decided ok => (.finished ok, { sh with lastUpdate := now })
  | .finished ok => (.finished ok, sh)

/-- Interleaved execution of two goroutines both calling `Allow` at time
`now`: each schedule entry names the goroutine performing the next atomic
step (`false` = first, `true` = second). -/
def runSchedule (rate capacity : ℚ) (now : ℤ) :
    List Bool → AllowPC × AllowPC × SharedState → AllowPC × AllowPC × SharedState
  | [], st => st
  | b :: rest, (pc1, pc2, sh) =>
      if b then
        let (pc2', sh') := threadStep rate capacity now pc2 sh
        runSchedule rate capacity now rest (pc1, pc2', sh')
      else
        let (pc1', sh') := threadStep rate capacity now pc1 sh
        runSchedule rate capacity now rest (pc1', pc2, sh')

/-- Number of admissions reported by a finished goroutine. -/
def admitCount : AllowPC → ℕ
  | .finished true => 1
  | _ => 0

/-- C3 fails on the code (the separate atomic loads and stores lose
updates): from a limiter with rate 1000, capacity 100 and exactly one token
(10⁹ nano-tokens), two goroutines calling `Allow` at the same instant under
the interleaving that lets both load `tokens` before either stores are BOTH
admitted, while the same two calls run to completion one after the other —
the single-threaded reference, matched here against `Allow` itself — admit
exactly one request. -/
theorem allow_race_over_admits :
    (admitCount (runSchedule 1000 100 0
        [false, true, false, true, false, true, false, true]
        (.start, .start, ⟨10 ^ 9, 0⟩)).1
      + admitCount (runSchedule 1000 100 0
        [false, true, false, true, false, true, false, true]
        (.start, .start, ⟨10 ^ 9, 0⟩)).2.1 = 2) ∧
    (admitCount (runSchedule 1000 100 0
        [false, false, false, false, true, true, true, true]
        (.start, .start, ⟨10 ^ 9, 0⟩)).1
      + admitCount (runSchedule 1000 100 0
        [false, false, false, false, true, true, true, true]
        (.start, .start, ⟨10 ^ 9, 0⟩)).2.1 = 1) ∧
    ((RateLimiter.mk 1000 100 (10 ^ 9) 0).Allow 0).1 = true ∧
    (((RateLimiter.mk 1000 100 (10 ^ 9) 0).Allow 0).2.Allow 0).1 = false ∧
    (runSchedule 1000 100 0 [false, false, false, false, true, true, true, true]
        (.start, .start, ⟨10 ^ 9, 0⟩)).2.2.tokens
      = (((RateLimiter.mk 1000 100 (10 ^ 9) 0).Allow 0).2.Allow 0).2.tokens := by
  refine ⟨?_, ?_, ?_, ?_, ?_⟩ <;>
    norm_num [runSchedule, threadStep, admitCount, RateLimiter.Allow, min_def]

end GatewaySim
